import Mathlib

/-!
# Verification of the AST patch/merge core of Rust-Patchs-Templates

Shallow embedding of `src/diff.rs`, `src/merger.rs`, `src/ast_parser.rs`,
`src/cli.rs` and the diff-then-merge pipeline of `src/generator.rs`.

Modelling conventions:
* A syn `Item` is abstracted to its kind tag (with the identifiers the code
  inspects) together with an opaque `code` string standing for
  `quote::quote!(#item).to_string()`, the canonical printed form that both
  `compute_patch` and `merge_patch` use for comparison.
* Rust's `HashMap<String, Item>` is modelled as an association list with
  insert-overwrite semantics.  Rust's iteration order over a `HashMap` is
  unspecified; the model iterates residual entries in key-insertion order.
* `Result<T>` is modelled as `Except String T`.
* Conflict message strings follow the source format strings with the
  surrounding quote characters omitted.
-/

/-- Kind tag of a top-level syn `Item`, carrying exactly the data the
repository's code inspects: the declared identifier for named kinds, and the
trait-path segments (as identifier strings) for impl blocks. -/
inductive ItemKind where
  | fnK (ident : String)
  | structK (ident : String)
  | enumK (ident : String)
  | traitK (ident : String)
  | typeK (ident : String)
  | constK (ident : String)
  | staticK (ident : String)
  | modK (ident : String)
  | implK (traitSegments : Option (List String))
  | otherK
  deriving DecidableEq, Repr

/-- A top-level item: its kind plus the canonical token string that
`quote::quote!(#item).to_string()` would print. -/
structure Item where
  kind : ItemKind
  code : String
  deriving DecidableEq, Repr

/-- Model of `quote::quote!(#item).to_string()`. -/
def itemCode (item : Item) : String := item.code

/-- `extract_item_name` as defined (identically) in `diff.rs` and
`merger.rs`: named kinds yield the declared identifier; impl blocks and all
other kinds fall to the wildcard arm and yield `None`. -/
def extract_item_name (item : Item) : Option String :=
  match item.kind with
  | .fnK i => some i
  | .structK i => some i
  | .enumK i => some i
  | .traitK i => some i
  | .typeK i => some i
  | .constK i => some i
  | .staticK i => some i
  | .modK i => some i
  | .implK _ => none
  | .otherK => none

/-- The per-item predicate of `ParsedFile::find_item` in `ast_parser.rs`:
seven named kinds are matched by declared identifier, trait impl blocks by
the trait path's terminal segment; `Item::Mod` falls to the wildcard arm. -/
def find_item_matches (name : String) (item : Item) : Bool :=
  match item.kind with
  | .fnK i => i == name
  | .structK i => i == name
  | .enumK i => i == name
  | .traitK i => i == name
  | .typeK i => i == name
  | .constK i => i == name
  | .staticK i => i == name
  | .implK tr =>
    match tr with
    | some segs => ((segs.getLast?).map (fun s => s == name)).getD false
    | none => false
  | .modK _ => false
  | .otherK => false

/-- `ParsedFile::find_item`. -/
def find_item (items : List Item) (name : String) : Option Item :=
  items.find? (find_item_matches name)

/-- The closure of `ParsedFile::get_item_names` in `ast_parser.rs`: seven
named kinds yield their identifier; `Item::Mod` (and impls, etc.) fall to
the wildcard arm and yield `None`. -/
def ast_item_name (item : Item) : Option String :=
  match item.kind with
  | .fnK i => some i
  | .structK i => some i
  | .enumK i => some i
  | .traitK i => some i
  | .typeK i => some i
  | .constK i => some i
  | .staticK i => some i
  | .modK _ => none
  | .implK _ => none
  | .otherK => none

/-- `ParsedFile::get_item_names`. -/
def get_item_names (items : List Item) : List String :=
  items.filterMap ast_item_name

/-- `PatchOp` from `diff.rs`. -/
inductive PatchOp where
  | insert (name : String) (item : Item)
  | delete (name : String)
  | modify (name : String) (old_item : Item) (new_item : Item)
  | keep (name : String)
  deriving DecidableEq, Repr

/-- `Patch` from `diff.rs`. -/
structure Patch where
  operations : List PatchOp
  deriving DecidableEq, Repr

/-- The first loop of `compute_patch` (walking `new_items`): returns the
emitted operations together with the final `processed_old` flag vector.
Mirrors the source faithfully, including its use of an index computed from
the *compacted* `old_names` list to index the *full* `old_items` list. -/
def diffNewLoop (old_items : List Item) (old_names : List String) :
    List Item → List Bool → List PatchOp × List Bool
  | [], processed => ([], processed)
  | new_item :: rest, processed =>
    match extract_item_name new_item with
    | some name =>
      match old_names.findIdx? (fun n => n == name) with
      | some old_idx =>
        let processed := processed.set old_idx true
        let old_item := old_items.getD old_idx ⟨.otherK, ""⟩
        let op :=
          if itemCode old_item == itemCode new_item then
            PatchOp.keep name
          else
            PatchOp.modify name old_item new_item
        let r := diffNewLoop old_items old_names rest processed
        (op :: r.1, r.2)
      | none =>
        let r := diffNewLoop old_items old_names rest processed
        (PatchOp.insert name new_item :: r.1, r.2)
    | none => diffNewLoop old_items old_names rest processed

/-- The second loop of `compute_patch`: emit `Delete` for every named old
item whose `processed_old` flag is still false (walking `old_items` and the
flag vector in lockstep). -/
def diffDeleteLoop : List Item → List Bool → List PatchOp
  | [], _ => []
  | old_item :: rest, processed =>
    let flag := processed.headD false
    let here :=
      if flag then ([] : List PatchOp)
      else
        match extract_item_name old_item with
        | some name => [PatchOp.delete name]
        | none => []
    here ++ diffDeleteLoop rest processed.tail

/-- `compute_patch` from `diff.rs`. -/
def compute_patch (old_items new_items : List Item) : Except String Patch :=
  let old_names := old_items.filterMap extract_item_name
  let processed0 := List.replicate old_items.length false
  let r := diffNewLoop old_items old_names new_items processed0
  let delOps := diffDeleteLoop old_items r.2
  .ok { operations := r.1 ++ delOps }

/-- `MergeStrategy` from `merger.rs`. -/
inductive MergeStrategy where
  | PreferTemplate
  | PreferManual
  | FailOnConflict
  deriving DecidableEq, Repr

/-- `MergeResult` from `merger.rs`. -/
structure MergeResult where
  merged_items : List Item
  conflicts : List String
  deriving DecidableEq, Repr

/-- Association-list model of the merger's `HashMap<String, Item>`:
insert overwrites the value at an existing key, otherwise appends. -/
def mapInsert (m : List (String × Item)) (k : String) (v : Item) :
    List (String × Item) :=
  if m.any (fun p => p.1 == k) then
    m.map (fun p => if p.1 == k then (k, v) else p)
  else
    m ++ [(k, v)]

/-- Lookup in the base map (`HashMap::get` / `contains_key`). -/
def mapGet (m : List (String × Item)) (k : String) : Option Item :=
  (m.find? (fun p => p.1 == k)).map (fun p => p.2)

/-- Removal from the base map (`HashMap::remove`). -/
def mapRemove (m : List (String × Item)) (k : String) : List (String × Item) :=
  m.filter (fun p => p.1 != k)

/-- The `base_map` built at the top of `merge_patch`: collect the
`(name, item)` pairs of the named base items, later keys overwriting
earlier ones. -/
def buildBaseMap (base_items : List Item) : List (String × Item) :=
  base_items.foldl
    (fun m item =>
      match extract_item_name item with
      | some name => mapInsert m name item
      | none => m)
    []

/-- Mutable state of `merge_patch`: output list, live base map, conflict log. -/
structure MergeState where
  merged_items : List Item
  base_map : List (String × Item)
  conflicts : List String
  deriving DecidableEq, Repr

/-- One iteration of the `for op in &patch.operations` loop of
`merge_patch`, faithful to the branch structure of `merger.rs`
(in particular: the `Modify` arm ignores `old_item` and compares the base
item's code against `new_item`'s code; the `FailOnConflict` arms of
`Insert` and `Delete` log a conflict without touching the base map). -/
def mergeStep (strategy : MergeStrategy) (st : MergeState) (op : PatchOp) :
    MergeState :=
  match op with
  | .insert name item =>
    if (mapGet st.base_map name).isSome then
      match strategy with
      | .PreferTemplate =>
        { st with
          merged_items := st.merged_items ++ [item],
          base_map := mapRemove st.base_map name }
      | .PreferManual =>
        let st' :=
          match mapGet st.base_map name with
          | some base_item =>
            { st with
              merged_items := st.merged_items ++ [base_item],
              base_map := mapRemove st.base_map name }
          | none => st
        { st' with
          conflicts := st'.conflicts ++
            ["Item " ++ name ++ " exists in both base and patch"] }
      | .FailOnConflict =>
        { st with
          conflicts := st.conflicts ++
            ["Conflict: Item " ++ name ++ " exists in both base and patch"] }
    else
      { st with merged_items := st.merged_items ++ [item] }
  | .delete name =>
    match mapGet st.base_map name with
    | some base_item =>
      match strategy with
      | .PreferTemplate =>
        { st with base_map := mapRemove st.base_map name }
      | .PreferManual =>
        { st with
          merged_items := st.merged_items ++ [base_item],
          base_map := mapRemove st.base_map name,
          conflicts := st.conflicts ++
            ["Item " ++ name ++ " was deleted in template but exists in base"] }
      | .FailOnConflict =>
        { st with
          conflicts := st.conflicts ++
            ["Conflict: Item " ++ name ++
              " was deleted in template but modified in base"] }
    | none => st
  | .modify name _old_item new_item =>
    match mapGet st.base_map name with
    | some base_item =>
      let st' := { st with base_map := mapRemove st.base_map name }
      if itemCode base_item == itemCode new_item then
        { st' with merged_items := st'.merged_items ++ [new_item] }
      else
        match strategy with
        | .PreferTemplate =>
          { st' with
            merged_items := st'.merged_items ++ [new_item],
            conflicts := st'.conflicts ++
              ["Item " ++ name ++ " has manual changes, overridden by template"] }
        | .PreferManual =>
          { st' with
            merged_items := st'.merged_items ++ [base_item],
            conflicts := st'.conflicts ++
              ["Item " ++ name ++ " has manual changes, template update skipped"] }
        | .FailOnConflict =>
          { st' with
            conflicts := st'.conflicts ++
              ["Conflict: Item " ++ name ++
                " has manual changes conflicting with template"] }
    | none =>
      { st with merged_items := st.merged_items ++ [new_item] }
  | .keep name =>
    match mapGet st.base_map name with
    | some base_item =>
      { st with
        merged_items := st.merged_items ++ [base_item],
        base_map := mapRemove st.base_map name }
    | none => st

/-- The operation loop of `merge_patch`. -/
def mergeOps (strategy : MergeStrategy) :
    List PatchOp → MergeState → MergeState
  | [], st => st
  | op :: ops, st => mergeOps strategy ops (mergeStep strategy st op)

/-- `merge_patch` from `merger.rs`: build the base map from the named base
items, run the operation loop, then append the residual base-map entries. -/
def merge_patch (base_items : List Item) (patch : Patch)
    (strategy : MergeStrategy) : Except String MergeResult :=
  let st0 : MergeState :=
    { merged_items := [], base_map := buildBaseMap base_items, conflicts := [] }
  let st := mergeOps strategy patch.operations st0
  .ok
    { merged_items := st.merged_items ++ st.base_map.map (fun p => p.2),
      conflicts := st.conflicts }

/-- The diff-then-merge core of `generator.rs::generate` (lines 50-53):
`compute_patch(existing, generated)` then
`merge_patch(existing, patch, strategy)`. -/
def generate_merge (existing generated : List Item)
    (strategy : MergeStrategy) : Except String MergeResult :=
  match compute_patch existing generated with
  | .ok patch => merge_patch existing patch strategy
  | .error e => .error e

/-- ASCII action of Rust's `char` lowercasing (`str::to_lowercase` agrees
with this on the ASCII strategy keywords the CLI recognizes). -/
def rust_char_to_lowercase (c : Char) : Char :=
  if 65 ≤ c.toNat ∧ c.toNat ≤ 90 then Char.ofNat (c.toNat + 32) else c

/-- Model of `str::to_lowercase` (ASCII action). -/
def rust_to_lowercase (s : String) : String :=
  String.mk (s.data.map rust_char_to_lowercase)

/-- `Commands::parse_strategy` from `cli.rs`. -/
def parse_strategy (strategy : String) : MergeStrategy :=
  let l := rust_to_lowercase strategy
  if l == "template" then .PreferTemplate
  else if l == "manual" then .PreferManual
  else if l == "fail" then .FailOnConflict
  else .PreferManual

/-- Is a patch operation a `Keep`? -/
def isKeepOp : PatchOp → Bool
  | .keep _ => true
  | _ => false

/-- Is a patch operation a `Modify`? -/
def isModifyOp : PatchOp → Bool
  | .modify _ _ _ => true
  | _ => false

/-- The name of an `Insert` or `Delete` operation, `none` for the others. -/
def opInsDelName : PatchOp → Option String
  | .insert n _ => some n
  | .delete n => some n
  | .modify _ _ _ => none
  | .keep _ => none

/-- Base item used in the C1 analysis: the patch's `old_item` is exactly the
base item, i.e. the base is canonically unmodified. -/
def c1_old : Item := ⟨.fnK "f", "fn f v1"⟩

/-- Updated template rendering of the same function. -/
def c1_new : Item := ⟨.fnK "f", "fn f v2"⟩

/-- C1: false of the code.  With base `[c1_old]` and the operation
`Modify("f", c1_old, c1_new)` - so the base item is canonically equal to
`old` - the merger compares the base against `new_item` (ignoring
`old_item`), treats the untouched base as manually modified, and logs a
conflict under every strategy; under PreferManual it even keeps the stale
base item instead of appending `c1_new`. -/
theorem c1_modify_unchanged_base_still_conflicts :
    merge_patch [c1_old] ⟨[.modify ("f") c1_old c1_new]⟩ .PreferManual =
      .ok ⟨[c1_old], ["Item f has manual changes, template update skipped"]⟩ ∧
    merge_patch [c1_old] ⟨[.modify ("f") c1_old c1_new]⟩ .PreferTemplate =
      .ok ⟨[c1_new], ["Item f has manual changes, overridden by template"]⟩ ∧
    merge_patch [c1_old] ⟨[.modify ("f") c1_old c1_new]⟩ .FailOnConflict =
      .ok ⟨[], ["Conflict: Item f has manual changes conflicting with template"]⟩ :=
  ⟨rfl, rfl, rfl⟩

/-- C2: false of the code.  An unnamed base item (an inherent impl block)
never enters the merger's base map, so with an empty patch the merged
output is empty under every strategy: the unnamed base item is lost. -/
theorem c2_unnamed_base_item_dropped :
    extract_item_name ⟨.implK none, "impl Point"⟩ = none ∧
    merge_patch [⟨.implK none, "impl Point"⟩] ⟨[]⟩ .PreferManual = .ok ⟨[], []⟩ ∧
    merge_patch [⟨.implK none, "impl Point"⟩] ⟨[]⟩ .PreferTemplate = .ok ⟨[], []⟩ ∧
    merge_patch [⟨.implK none, "impl Point"⟩] ⟨[]⟩ .FailOnConflict = .ok ⟨[], []⟩ :=
  ⟨rfl, rfl, rfl, rfl⟩

/-- Unnamed item preceding a named one, for the C3 analysis. -/
def c3_impl : Item := ⟨.implK none, "impl Point"⟩

/-- Named item following the unnamed one, for the C3 analysis. -/
def c3_fn : Item := ⟨.fnK "a", "fn a code"⟩

/-- Patch actually produced by `compute_patch` on the self-diff of
`[c3_impl, c3_fn]`. -/
def c3_patch : Patch := ⟨[.modify ("a") c3_impl c3_fn, .delete ("a")]⟩

/-- C3: false of the code.  `compute_patch` looks the matched name up in the
compacted `old_names` list but uses the resulting index into the full
`old_items` list, so on a self-diff of a list whose unnamed item precedes a
named one it emits a `Modify` (pairing the wrong items) and a `Delete`
instead of only `Keep` ops; merging that patch back does not restore the
base list. -/
theorem c3_self_diff_not_all_keep :
    compute_patch [c3_impl, c3_fn] [c3_impl, c3_fn] = .ok c3_patch ∧
    c3_patch.operations.all isKeepOp = false ∧
    merge_patch [c3_impl, c3_fn] c3_patch .PreferTemplate = .ok ⟨[c3_fn], []⟩ ∧
    ([c3_fn] : List Item) ≠ [c3_impl, c3_fn] :=
  ⟨rfl, rfl, rfl, by decide⟩

/-- Templated item of the C4 scenario. -/
def c4_tf : Item := ⟨.fnK "template_fn", "fn template_fn code"⟩

/-- Manually added helper of the C4 scenario. -/
def c4_mh : Item := ⟨.fnK "manual_helper", "fn manual_helper code"⟩

/-- C4 counterexample: in the generate pipeline (diff of existing against
generated, then merge under PreferManual) the manually added helper shows
up as a `Delete` op, and the merger logs a conflict for it - the conflict
list is not empty as the claim states. -/
theorem c4_pipeline_conflict_nonempty :
    generate_merge [c4_tf, c4_mh] [c4_tf] .PreferManual =
      .ok ⟨[c4_tf, c4_mh],
        ["Item manual_helper was deleted in template but exists in base"]⟩ ∧
    (["Item manual_helper was deleted in template but exists in base"] :
      List String) ≠ [] :=
  ⟨rfl, by decide⟩

/-- C4 (amended): in the generate pipeline under PreferManual, the merged
output contains both the templated item and the manual helper, and exactly
one conflict is logged, reporting the helper as deleted in the template but
present in the base. -/
theorem c4_manual_addition_kept_with_delete_conflict :
    ∃ r : MergeResult,
      generate_merge [c4_tf, c4_mh] [c4_tf] .PreferManual = .ok r ∧
      c4_tf ∈ r.merged_items ∧ c4_mh ∈ r.merged_items ∧
      r.conflicts =
        ["Item manual_helper was deleted in template but exists in base"] :=
  ⟨⟨[c4_tf, c4_mh],
      ["Item manual_helper was deleted in template but exists in base"]⟩,
    rfl, by decide, by decide, rfl⟩

/-- Base item of the C5 counterexample: a manual edit whose text happens to
coincide with the newly rendered template item. -/
def c5_base_item : Item := ⟨.fnK "f", "fn f vNew"⟩

/-- The `old_item` of the Modify op in the C5 counterexample. -/
def c5_old_item : Item := ⟨.fnK "f", "fn f vOld"⟩

/-- The `new_item` of the Modify op in the C5 counterexample. -/
def c5_new_item : Item := ⟨.fnK "f", "fn f vNew"⟩

/-- C5 counterexample: the base item differs canonically from `old_item`
(a manual edit in the claim's sense), yet because it coincides with
`new_item` the merger logs no conflict under PreferManual - the claim's
"conflict is logged" is false as stated. -/
theorem c5_manual_edit_matching_template_no_conflict :
    itemCode c5_base_item ≠ itemCode c5_old_item ∧
    merge_patch [c5_base_item] ⟨[.modify ("f") c5_old_item c5_new_item]⟩
        .PreferManual = .ok ⟨[c5_new_item], []⟩ :=
  ⟨by decide, rfl⟩

/-- C7 counterexample: the name extraction used by `compute_patch` and
`merge_patch` returns no identifier for a trait-implementing impl block,
not the trait path's terminal segment. -/
theorem c7_trait_impl_extracts_none :
    extract_item_name ⟨.implK (some ["fmt", "Display"]), "impl Display for X"⟩ =
      none ∧
    (none : Option String) ≠ some ("Display") :=
  ⟨rfl, by decide⟩

/-- C7 (amended): for diffing and merging, impl blocks (trait or inherent)
carry no identifier, so a pair of impl-only lists yields an empty patch;
only the parser facade's `find_item` matches a trait-implementing impl
block, and it does so exactly by the trait path's terminal segment. -/
theorem c7_impl_name_extraction :
    (∀ (tr : Option (List String)) (c : String),
      extract_item_name ⟨.implK tr, c⟩ = none) ∧
    (∀ (segs : List String) (c n : String),
      find_item_matches n ⟨.implK (some segs), c⟩ = true ↔
        segs.getLast? = some n) ∧
    (∀ (tr₁ tr₂ : Option (List String)) (c₁ c₂ : String),
      compute_patch [⟨.implK tr₁, c₁⟩] [⟨.implK tr₂, c₂⟩] = .ok ⟨[]⟩) := by
  refine ⟨fun tr c => rfl, fun segs c n => ?_, fun tr₁ tr₂ c₁ c₂ => rfl⟩
  simp only [find_item_matches]
  cases h : segs.getLast? with
  | none => simp [h]
  | some s => simp [h]

/-- C7 witness: concrete uses of the amended statement. -/
theorem c7_impl_name_extraction_witness :
    extract_item_name ⟨.implK (some ["fmt", "Display"]), "impl code"⟩ = none ∧
    (find_item_matches ("Display")
        ⟨.implK (some ["fmt", "Display"]), "impl code"⟩ = true ↔
      (["fmt", "Display"] : List String).getLast? = some ("Display")) :=
  ⟨c7_impl_name_extraction.1 (some ["fmt", "Display"]) ("impl code"),
    c7_impl_name_extraction.2.1 ["fmt", "Display"] ("impl code") ("Display")⟩

/-- C8 counterexample: `get_item_names` on a file holding one module item
returns the empty list, not the module's declared name. -/
theorem c8_module_name_missing :
    get_item_names [⟨.modK ("m"), "mod m code"⟩] = [] ∧
    ([] : List String) ≠ ["m"] :=
  ⟨rfl, by decide⟩

/-- C8 (amended): `get_item_names` returns the declared identifier of every
item of the seven named kinds function, struct, enum, trait, type-alias,
constant and static, but omits module items (whose names the diff/merge
extraction does produce). -/
theorem c8_get_item_names_named_kinds :
    (∀ i c : String, ast_item_name ⟨.modK i, c⟩ = none ∧
      extract_item_name ⟨.modK i, c⟩ = some i) ∧
    (∀ item : Item,
      ast_item_name item = none ∨ ast_item_name item = extract_item_name item) ∧
    (∀ (items : List Item) (item : Item) (n : String),
      item ∈ items → ast_item_name item = some n → n ∈ get_item_names items) := by
  refine ⟨fun i c => ⟨rfl, rfl⟩, fun item => ?_, fun items item n hm he => ?_⟩
  · rcases item with ⟨k, c⟩
    cases k <;> simp [ast_item_name, extract_item_name]
  · exact List.mem_filterMap.mpr ⟨item, hm, he⟩

/-- C8 witness: the declared name of a function item is listed. -/
theorem c8_get_item_names_named_kinds_witness :
    "foo" ∈ get_item_names [⟨.fnK ("foo"), "fn foo code"⟩] :=
  c8_get_item_names_named_kinds.2.2 [⟨.fnK ("foo"), "fn foo code"⟩]
    ⟨.fnK ("foo"), "fn foo code"⟩ ("foo") (by simp) rfl

/-- C9: `parse_strategy` depends only on the lowercased input (so it is
case-insensitive), maps the recognized values to the three strategies, and
maps every unrecognized value to PreferManual without error. -/
theorem c9_parse_strategy_contract :
    (∀ s t : String,
      rust_to_lowercase s = rust_to_lowercase t →
        parse_strategy s = parse_strategy t) ∧
    parse_strategy ("TEMPLATE") = .PreferTemplate ∧
    parse_strategy ("Manual") = .PreferManual ∧
    parse_strategy ("FAIL") = .FailOnConflict ∧
    (∀ s : String,
      rust_to_lowercase s ≠ "template" →
      rust_to_lowercase s ≠ "manual" →
      rust_to_lowercase s ≠ "fail" →
        parse_strategy s = .PreferManual) := by
  refine ⟨fun s t h => ?_, by decide, by decide, by decide, fun s h1 h2 h3 => ?_⟩
  · simp only [parse_strategy, h]
  · simp only [parse_strategy]
    rw [if_neg (by simpa using h1), if_neg (by simpa using h2),
      if_neg (by simpa using h3)]

/-- C9 witness: case-insensitivity and silent fallback at concrete inputs. -/
theorem c9_parse_strategy_contract_witness :
    parse_strategy ("TeMpLaTe") = parse_strategy ("template") ∧
    parse_strategy ("bogus") = .PreferManual :=
  ⟨c9_parse_strategy_contract.1 ("TeMpLaTe") ("template") (by decide),
    c9_parse_strategy_contract.2.2.2.2 ("bogus") (by decide) (by decide)
      (by decide)⟩

/-- C10: both `compute_patch` and `merge_patch` always return `Ok`; their
error branches are unreachable, conflicts being reported only as data in
the `MergeResult`. -/
theorem c10_diff_and_merge_total_ok :
    (∀ old_items new_items : List Item,
      ∃ p : Patch, compute_patch old_items new_items = .ok p) ∧
    (∀ (base_items : List Item) (patch : Patch) (strategy : MergeStrategy),
      ∃ r : MergeResult, merge_patch base_items patch strategy = .ok r) :=
  ⟨fun _ _ => ⟨_, rfl⟩, fun _ _ _ => ⟨_, rfl⟩⟩

/-- C5 (amended): for a `Modify(n, old, new)` op whose base item differs
canonically from the NEW item (the merger keys conflict detection on the
base-vs-new comparison, ignoring `old`): PreferTemplate outputs the new
item and logs a conflict, PreferManual outputs the base item and logs a
conflict, FailOnConflict logs a conflict and leaves the item absent from
the output. -/
theorem c5_modify_strategy_contract (b old_item new_item : Item) (n : String)
    (hname : extract_item_name b = some n)
    (hdiff : itemCode b ≠ itemCode new_item) :
    merge_patch [b] ⟨[.modify n old_item new_item]⟩ .PreferTemplate =
      .ok ⟨[new_item],
        ["Item " ++ n ++ " has manual changes, overridden by template"]⟩ ∧
    merge_patch [b] ⟨[.modify n old_item new_item]⟩ .PreferManual =
      .ok ⟨[b],
        ["Item " ++ n ++ " has manual changes, template update skipped"]⟩ ∧
    merge_patch [b] ⟨[.modify n old_item new_item]⟩ .FailOnConflict =
      .ok ⟨[],
        ["Conflict: Item " ++ n ++
          " has manual changes conflicting with template"]⟩ := by
  have hbm : buildBaseMap [b] = [(n, b)] := by
    simp [buildBaseMap, hname, mapInsert]
  have hget : mapGet [(n, b)] n = some b := by
    simp [mapGet]
  have hrem : mapRemove [(n, b)] n = [] := by
    simp [mapRemove]
  have hcode : (itemCode b == itemCode new_item) = false := by
    simpa using hdiff
  refine ⟨?_, ?_, ?_⟩ <;>
    simp [merge_patch, mergeOps, mergeStep, hbm, hget, hrem, hcode]

/-- C5 witness: the amended strategy contract at a concrete modify op. -/
theorem c5_modify_strategy_contract_witness :
    merge_patch [⟨.fnK ("f"), "vb"⟩]
        ⟨[.modify ("f") ⟨.fnK ("f"), "vo"⟩ ⟨.fnK ("f"), "vn"⟩]⟩ .PreferTemplate =
      .ok ⟨[⟨.fnK ("f"), "vn"⟩],
        ["Item " ++ "f" ++ " has manual changes, overridden by template"]⟩ ∧
    merge_patch [⟨.fnK ("f"), "vb"⟩]
        ⟨[.modify ("f") ⟨.fnK ("f"), "vo"⟩ ⟨.fnK ("f"), "vn"⟩]⟩ .PreferManual =
      .ok ⟨[⟨.fnK ("f"), "vb"⟩],
        ["Item " ++ "f" ++ " has manual changes, template update skipped"]⟩ ∧
    merge_patch [⟨.fnK ("f"), "vb"⟩]
        ⟨[.modify ("f") ⟨.fnK ("f"), "vo"⟩ ⟨.fnK ("f"), "vn"⟩]⟩ .FailOnConflict =
      .ok ⟨[],
        ["Conflict: Item " ++ "f" ++
          " has manual changes conflicting with template"]⟩ :=
  c5_modify_strategy_contract ⟨.fnK ("f"), "vb"⟩ ⟨.fnK ("f"), "vo"⟩
    ⟨.fnK ("f"), "vn"⟩ ("f") rfl (by decide)

/-- Base item colliding with a template insert, for the C6 counterexample. -/
def c6_mine : Item := ⟨.fnK "x", "fn x mine"⟩

/-- Template item of the colliding insert, for the C6 counterexample. -/
def c6_templ : Item := ⟨.fnK "x", "fn x templ"⟩

/-- Patch of the C6 counterexample: a single conflicted Insert, no Modify. -/
def c6_patch : Patch := ⟨[.insert ("x") c6_templ]⟩

/-- C6 counterexample: on a conflicted Insert (no Modify op in the patch at
all), PreferTemplate outputs the template item while FailOnConflict leaves
the base entry in the map - it resurfaces as a residual - so the two merged
lists differ, contradicting the claim that conflicted Inserts leave the
same output under both strategies. -/
theorem c6_insert_conflict_outputs_differ :
    c6_patch.operations.all (fun op => !isModifyOp op) = true ∧
    merge_patch [c6_mine] c6_patch .PreferTemplate = .ok ⟨[c6_templ], []⟩ ∧
    merge_patch [c6_mine] c6_patch .FailOnConflict =
      .ok ⟨[c6_mine], ["Conflict: Item x exists in both base and patch"]⟩ ∧
    ([c6_templ] : List Item) ≠ [c6_mine] :=
  ⟨rfl, rfl, rfl, by decide⟩

/-- A key absent from the base map stays absent after a removal. -/
theorem mapGet_remove_none (m : List (String × Item)) (k n : String)
    (h : mapGet m n = none) : mapGet (mapRemove m k) n = none := by
  have h' : m.find? (fun p => p.1 == n) = none := by
    cases hf : m.find? (fun p => p.1 == n) with
    | none => rfl
    | some p => rw [mapGet, hf] at h; simp at h
  have hall := List.find?_eq_none.mp h'
  rw [mapGet, mapRemove, List.find?_eq_none.mpr
    (fun p hp => hall p (List.mem_of_mem_filter hp))]
  rfl

/-- Paired run of the merge loop under PreferTemplate and FailOnConflict
from states sharing the base map.  If no Insert or Delete op of the patch
names a key of that map (so neither can conflict: the map only ever
shrinks), both runs keep identical base maps, FailOnConflict appends a
subsequence of what PreferTemplate appends, and each FailOnConflict
conflict accounts for exactly one item PreferTemplate appends but
FailOnConflict drops (the conflicted Modify items). -/
theorem mergeOps_pt_fc (ops : List PatchOp) :
    ∀ (m : List (String × Item)) (mlPT mlFC : List Item)
      (cPT cFC : List String),
    (∀ n ∈ ops.filterMap opInsDelName, mapGet m n = none) →
    (mergeOps .PreferTemplate ops ⟨mlPT, m, cPT⟩).base_map =
        (mergeOps .FailOnConflict ops ⟨mlFC, m, cFC⟩).base_map ∧
    ∃ pPT pFC cN,
      (mergeOps .PreferTemplate ops ⟨mlPT, m, cPT⟩).merged_items =
          mlPT ++ pPT ∧
      (mergeOps .FailOnConflict ops ⟨mlFC, m, cFC⟩).merged_items =
          mlFC ++ pFC ∧
      (mergeOps .FailOnConflict ops ⟨mlFC, m, cFC⟩).conflicts = cFC ++ cN ∧
      pFC.Sublist pPT ∧
      pPT.length = pFC.length + cN.length := by
  induction ops with
  | nil =>
    intro m mlPT mlFC cPT cFC _
    exact ⟨rfl, [], [], [], by simp [mergeOps], by simp [mergeOps],
      by simp [mergeOps], List.Sublist.refl _, rfl⟩
  | cons op ops ih =>
    intro m mlPT mlFC cPT cFC H
    have htail : ∀ n' ∈ ops.filterMap opInsDelName, mapGet m n' = none :=
      fun n' hn' => H n' (by
        cases hop : opInsDelName op <;>
          simp [List.filterMap_cons, hop, List.mem_cons, hn'])
    cases op with
    | insert n item =>
      have hn : mapGet m n = none :=
        H n (by simp [List.filterMap_cons, opInsDelName])
      have hstep : ∀ s ml c,
          mergeStep s ⟨ml, m, c⟩ (.insert n item) = ⟨ml ++ [item], m, c⟩ := by
        intro s ml c
        simp [mergeStep, hn]
      simp only [mergeOps, hstep]
      obtain ⟨hmap, pPT, pFC, cN, h1, h2, h3, hsub, hlen⟩ :=
        ih m (mlPT ++ [item]) (mlFC ++ [item]) cPT cFC htail
      refine ⟨hmap, item :: pPT, item :: pFC, cN, ?_, ?_, h3,
        List.cons_sublist_cons.mpr hsub, ?_⟩
      · rw [h1]; simp
      · rw [h2]; simp
      · simp only [List.length_cons]; omega
    | delete n =>
      have hn : mapGet m n = none :=
        H n (by simp [List.filterMap_cons, opInsDelName])
      have hstep : ∀ s ml c,
          mergeStep s ⟨ml, m, c⟩ (.delete n) = ⟨ml, m, c⟩ := by
        intro s ml c
        simp [mergeStep, hn]
      simp only [mergeOps, hstep]
      exact ih m mlPT mlFC cPT cFC htail
    | modify n o nw =>
      cases hg : mapGet m n with
      | none =>
        have hstep : ∀ s ml c,
            mergeStep s ⟨ml, m, c⟩ (.modify n o nw) = ⟨ml ++ [nw], m, c⟩ := by
          intro s ml c
          simp [mergeStep, hg]
        simp only [mergeOps, hstep]
        obtain ⟨hmap, pPT, pFC, cN, h1, h2, h3, hsub, hlen⟩ :=
          ih m (mlPT ++ [nw]) (mlFC ++ [nw]) cPT cFC htail
        refine ⟨hmap, nw :: pPT, nw :: pFC, cN, ?_, ?_, h3,
          List.cons_sublist_cons.mpr hsub, ?_⟩
        · rw [h1]; simp
        · rw [h2]; simp
        · simp only [List.length_cons]; omega
      | some b =>
        have htail2 : ∀ n' ∈ ops.filterMap opInsDelName,
            mapGet (mapRemove m n) n' = none :=
          fun n' hn' => mapGet_remove_none m n n' (htail n' hn')
        by_cases hc : (itemCode b == itemCode nw) = true
        · have hstep : ∀ s ml c,
              mergeStep s ⟨ml, m, c⟩ (.modify n o nw) =
                ⟨ml ++ [nw], mapRemove m n, c⟩ := by
            intro s ml c
            simp [mergeStep, hg, hc]
          simp only [mergeOps, hstep]
          obtain ⟨hmap, pPT, pFC, cN, h1, h2, h3, hsub, hlen⟩ :=
            ih (mapRemove m n) (mlPT ++ [nw]) (mlFC ++ [nw]) cPT cFC htail2
          refine ⟨hmap, nw :: pPT, nw :: pFC, cN, ?_, ?_, h3,
            List.cons_sublist_cons.mpr hsub, ?_⟩
          · rw [h1]; simp
          · rw [h2]; simp
          · simp only [List.length_cons]; omega
        · have hc' : (itemCode b == itemCode nw) = false := by
            simpa using hc
          have hstepPT :
              mergeStep .PreferTemplate ⟨mlPT, m, cPT⟩ (.modify n o nw) =
                ⟨mlPT ++ [nw], mapRemove m n,
                  cPT ++
                    ["Item " ++ n ++ " has manual changes, overridden by template"]⟩ := by
            simp [mergeStep, hg, hc']
          have hstepFC :
              mergeStep .FailOnConflict ⟨mlFC, m, cFC⟩ (.modify n o nw) =
                ⟨mlFC, mapRemove m n,
                  cFC ++
                    ["Conflict: Item " ++ n ++
                      " has manual changes conflicting with template"]⟩ := by
            simp [mergeStep, hg, hc']
          simp only [mergeOps, hstepPT, hstepFC]
          obtain ⟨hmap, pPT, pFC, cN, h1, h2, h3, hsub, hlen⟩ :=
            ih (mapRemove m n) (mlPT ++ [nw]) mlFC
              (cPT ++
                ["Item " ++ n ++ " has manual changes, overridden by template"])
              (cFC ++
                ["Conflict: Item " ++ n ++
                  " has manual changes conflicting with template"]) htail2
          refine ⟨hmap, nw :: pPT, pFC,
            ("Conflict: Item " ++ n ++
              " has manual changes conflicting with template") :: cN,
            ?_, h2, ?_, List.Sublist.cons nw hsub, ?_⟩
          · rw [h1]; simp
          · rw [h3]; simp
          · simp only [List.length_cons]; omega
    | keep n =>
      cases hg : mapGet m n with
      | none =>
        have hstep : ∀ s ml c,
            mergeStep s ⟨ml, m, c⟩ (.keep n) = ⟨ml, m, c⟩ := by
          intro s ml c
          simp [mergeStep, hg]
        simp only [mergeOps, hstep]
        exact ih m mlPT mlFC cPT cFC htail
      | some b =>
        have htail2 : ∀ n' ∈ ops.filterMap opInsDelName,
            mapGet (mapRemove m n) n' = none :=
          fun n' hn' => mapGet_remove_none m n n' (htail n' hn')
        have hstep : ∀ s ml c,
            mergeStep s ⟨ml, m, c⟩ (.keep n) =
              ⟨ml ++ [b], mapRemove m n, c⟩ := by
          intro s ml c
          simp [mergeStep, hg]
        simp only [mergeOps, hstep]
        obtain ⟨hmap, pPT, pFC, cN, h1, h2, h3, hsub, hlen⟩ :=
          ih (mapRemove m n) (mlPT ++ [b]) (mlFC ++ [b]) cPT cFC htail2
        refine ⟨hmap, b :: pPT, b :: pFC, cN, ?_, ?_, h3,
          List.cons_sublist_cons.mpr hsub, ?_⟩
        · rw [h1]; simp
        · rw [h2]; simp
        · simp only [List.length_cons]; omega

/-- C6 (amended): provided no Insert or Delete op of the patch names a base
item (so neither of those op kinds can conflict), the FailOnConflict merged
list is the PreferTemplate merged list with exactly the items of conflicted
Modify operations dropped: it is a subsequence, and each logged conflict
accounts for one dropped item.  (The claim as stated is false: conflicted
Inserts and Deletes do NOT leave the same output, since FailOnConflict
never removes their base entries, which resurface as residuals.) -/
theorem c6_failonconflict_refines_prefertemplate
    (base_items : List Item) (ops : List PatchOp)
    (H : ∀ n ∈ ops.filterMap opInsDelName,
      mapGet (buildBaseMap base_items) n = none) :
    ∃ rPT rFC : MergeResult,
      merge_patch base_items ⟨ops⟩ .PreferTemplate = .ok rPT ∧
      merge_patch base_items ⟨ops⟩ .FailOnConflict = .ok rFC ∧
      rFC.merged_items.Sublist rPT.merged_items ∧
      rPT.merged_items.length =
        rFC.merged_items.length + rFC.conflicts.length := by
  obtain ⟨hmap, pPT, pFC, cN, h1, h2, h3, hsub, hlen⟩ :=
    mergeOps_pt_fc ops (buildBaseMap base_items) [] [] [] [] H
  refine ⟨_, _, rfl, rfl, ?_, ?_⟩
  · show ((mergeOps .FailOnConflict ops
        ⟨[], buildBaseMap base_items, []⟩).merged_items ++ _).Sublist
      ((mergeOps .PreferTemplate ops
        ⟨[], buildBaseMap base_items, []⟩).merged_items ++ _)
    rw [h1, h2, ← hmap]
    exact List.Sublist.append (by simpa using hsub) (List.Sublist.refl _)
  · show ((mergeOps .PreferTemplate ops
        ⟨[], buildBaseMap base_items, []⟩).merged_items ++ _).length = _
    rw [h1, h2, h3, ← hmap]
    simp only [List.nil_append, List.length_append]
    omega

/-- C6 witness: the amended refinement at a concrete base and patch holding
one conflicted Modify and one fresh Insert. -/
theorem c6_failonconflict_refines_prefertemplate_witness :
    ∃ rPT rFC : MergeResult,
      merge_patch [⟨.fnK "f", "vA"⟩]
          ⟨[PatchOp.modify ("f") ⟨.fnK "f", "vA"⟩ ⟨.fnK "f", "vB"⟩,
            PatchOp.insert ("g") ⟨.fnK "g", "vG"⟩]⟩ .PreferTemplate = .ok rPT ∧
      merge_patch [⟨.fnK "f", "vA"⟩]
          ⟨[PatchOp.modify ("f") ⟨.fnK "f", "vA"⟩ ⟨.fnK "f", "vB"⟩,
            PatchOp.insert ("g") ⟨.fnK "g", "vG"⟩]⟩ .FailOnConflict = .ok rFC ∧
      rFC.merged_items.Sublist rPT.merged_items ∧
      rPT.merged_items.length =
        rFC.merged_items.length + rFC.conflicts.length :=
  c6_failonconflict_refines_prefertemplate [⟨.fnK "f", "vA"⟩]
    [PatchOp.modify ("f") ⟨.fnK "f", "vA"⟩ ⟨.fnK "f", "vB"⟩,
      PatchOp.insert ("g") ⟨.fnK "g", "vG"⟩] (by decide)
